import Mathlib

/-!
# Flamingo `core/core/app`: request dispatch, recovery, registration merge

A shallow embedding of `src/core/core/app/app.go`.

* Go maps are association lists with distinct keys; the order of the list is the
  order in which `range` visits the map, so a statement quantified over all lists
  covers every iteration order.
* A Go call that may panic returns an `Outcome`; side effects on the response
  writer, the session store, the log and the file system are recorded in an
  explicit `State`.
* Collaborators outside this file of the repository (net/http, gorilla/mux,
  gorilla/sessions, encoding/json, the `web` package) are parameters collected
  in `Env`.
-/

set_option autoImplicit false

namespace Flamingo

/-! ## Values, outcomes, maps -/

/-- A Go `interface{}` data value as produced by data controllers and by
`json.Unmarshal` into an `interface{}`; `nil` is the zero value. -/
inductive Value where
  | nil
  | bool (b : Bool)
  | num (n : Int)
  | str (s : String)
  | list (xs : List Value)
  | dict (kv : List (String × Value))

/-- Result of a Go call: it returns a value, or it panics with a (non-nil) value
whose `%s` rendering is `err`. -/
inductive Outcome (α : Type) where
  | returned (v : α)
  | panicked (err : String)

/-- The runtime error raised by a method call on a nil interface or a field
access through a nil pointer. -/
def nilDereference : String :=
  "runtime error: invalid memory address or nil pointer dereference"

/-- A Go `map[string]α`, listed in iteration order. -/
abbrev GoMap (α : Type) := List (String × α)

/-- Go `v, ok := m[k]`. -/
def GoMap.index {α : Type} (m : GoMap α) (k : String) : Option α :=
  List.lookup k m

/-- Go `m[k] = v`. -/
def GoMap.assign {α : Type} (m : GoMap α) (k : String) (v : α) : GoMap α :=
  (k, v) :: m.filter (fun e => e.1 != k)

/-- The keys of a map, in iteration order. -/
def GoMap.keys {α : Type} (m : GoMap α) : List String :=
  m.map Prod.fst

/-! ## The response writer -/

/-- A call received by the wrapped `http.ResponseWriter`; a `Write` is recorded
with the byte count it returned. -/
inductive SinkCall where
  | WriteHeader (h : Int)
  | Write (data : String) (l : Int)
  deriving DecidableEq

/-- The wrapped `http.ResponseWriter`, observed through the calls it received
and its header map. -/
structure Sink where
  calls : List SinkCall
  header : GoMap String

/-- `ResponseWriter` of app.go: the embedded writer plus the recorded status and
byte count. Both fields are Go `int`s: the status is only stored and compared,
the byte count is added to with wrap-around (see `wrapInt`). -/
structure ResponseWriter where
  sink : Sink
  status : Int
  size : Int

/-- What a piece of called code (a controller, a response, the router's
fallback) does to its surroundings, in order. -/
inductive Op where
  | WriteHeader (h : Int)
  | Write (data : String)
  | SetHeader (k v : String)
  | ReadFile (path : String)
  deriving DecidableEq

/-- A call into code outside the dispatcher: the effects it performs, then how
it ends. -/
structure Call (α : Type) where
  ops : List Op
  result : Outcome α

/-- A `web.Response`: the JSON adapter, or any other implementation described
by what its `Apply` does. -/
inductive Response where
  | JsonResponse (data : Value)
  | other (apply : Call Unit)

/-! ## Requests, contexts, controllers -/

/-- A session handed out by the session store. -/
structure Session where
  values : List (String × String)

/-- The parts of `*http.Request` the dispatcher reads; `vars` are the route
variables the router extracted. -/
structure Request where
  Method : String
  RequestURI : String
  vars : GoMap String

namespace web

/-- Per-request context of the `web` package. -/
structure Context where
  req : Request
  session : Session

/-- Modelled from the spec: `web.ContextFromRequest` is in the `web` package,
which is not among the sources; the context carries the request and the loaded
session. -/
def ContextFromRequest (req : Request) (s : Session) : Context :=
  { req := req, session := s }

/-- Modelled from the spec: `web.Context.Param1` is in the `web` package, which
is not among the sources; it looks a path parameter up. -/
def Context.Param1 (c : Context) (k : String) : String :=
  (c.req.vars.index k).getD ""

end web

/-- The capabilities the type switch of `App.handle` tests for. -/
inductive Capability where
  | Get
  | Post
  | handlerFunc
  | Data
  | dataFunc
  | ServeHTTP
  deriving DecidableEq

/-- A `Controller` (`interface{}`) value, described by what the type switch can
see of it: the methods `Get`, `Post`, `Data`, `ServeHTTP` it has, and whether its
dynamic type is `func(web.Context) web.Response` or
`func(web.Context) interface{}`. -/
structure Controller where
  Get : Option (web.Context → Call (Option Response))
  Post : Option (web.Context → Call (Option Response))
  handlerFunc : Option (web.Context → Call (Option Response))
  Data : Option (web.Context → Call Value)
  dataFunc : Option (web.Context → Call Value)
  ServeHTTP : Option (Request → Call Unit)

/-- A value with none of the capabilities. -/
def Controller.none : Controller :=
  { Get := Option.none, Post := Option.none, handlerFunc := Option.none,
    Data := Option.none, dataFunc := Option.none, ServeHTTP := Option.none }

/-! ## Router, app, environment -/

/-- A route created by `router.Handle(pattern, a.handle(controller)).Name(name)`.
When the router refuses the pattern the route carries an error: it gets neither
the handler nor the name (`name` is `none`) and never matches. -/
structure Route where
  pattern : String
  name : Option String
  controller : Controller
  err : Bool

/-- The `mux.Router`, as the list of routes mounted on it, oldest first. -/
abbrev Router := List Route

/-- Modelled on `mux.Router.Get`: the route most recently given this name, nil
when there is none. -/
def Router.Get (r : Router) (name : String) : Option Route :=
  r.reverse.find? (fun rt => rt.name == some name)

/-- A parsed URL. -/
structure URL where
  Scheme : String
  Host : String
  Path : String
  deriving DecidableEq

/-- What the router does with a request. -/
inductive MuxResult where
  | matched (rt : Route) (vars : GoMap String)
  | unmatched (fallback : Call Unit)

/-- The `App` struct. `Sessions` is the store's `Get`; `log` is the logger's
line start. -/
structure App where
  router : Router
  routes : GoMap String
  handler : GoMap Controller
  Debug : Bool
  base : Option URL
  log : String
  Sessions : Request → String → Session

/-- Behaviour of the collaborators that are not part of app.go. -/
structure Env where
  /-- Byte count the wrapped writer returns from `Write`, given the calls it has
  received so far. -/
  sinkWrite : List SinkCall → String → Int
  /-- `web.JsonResponse.Apply`. -/
  jsonApply : Value → Call Unit
  /-- `debug.Stack()`. -/
  Stack : String
  /-- `mux.Router.ServeHTTP`: route matching. -/
  muxMatch : Router → Request → MuxResult
  /-- Whether the router accepts a path pattern (`mux.Route.Path` sets no
  error). -/
  muxAccepts : String → Bool
  /-- `mux.Route.URL`: reversal of a route with parameter pairs. -/
  routeURL : Route → List String → Except String URL
  /-- `path.Join` of two elements. -/
  pathJoin : String → String → String
  /-- `url.Parse`; `none` when it returns an error. -/
  urlParse : String → Option URL
  /-- `ioutil.ReadFile`; `none` when it returns an error. -/
  readFile : String → Option String
  /-- `json.Unmarshal` into an `interface{}`; `none` when it returns an error. -/
  unmarshal : String → Option Value
  /-- The order in which `range` visits the entries of the handler map. -/
  rangeHandlers : GoMap Controller → GoMap Controller
  /-- The `Get` of the store `sessions.NewCookieStore` builds from a key. -/
  NewCookieStore : String → Request → String → Session

/-- Colour functions of `labstack/gommon/color` chosen for the log line. -/
inductive Color where
  | Green
  | Blue
  | Yellow
  | Red
  | Black
  deriving DecidableEq

/-- The arguments of the access-log `Printf` (the elapsed time is left out). -/
structure LogLine where
  color : Color
  status : Int
  method : String
  size : Int
  uri : String
  extra : String
  deriving DecidableEq

/-- Observable steps of a request other than calls on the writer. -/
inductive Event where
  | SessionsGet (name : String)
  | SessionsSave
  | Invoke (cap : Capability)
  | Apply
  | ReadFile (path : String)
  | Printf (line : LogLine)
  deriving DecidableEq

/-- State of one request: the wrapping writer and the trace of events so far. -/
structure State where
  w : ResponseWriter
  trace : List Event

/-! ## ResponseWriter methods (app.go 82-93) -/

/-- A Go `int` (64 bits, two's complement) holding the integer `x`: the sum of
two `int`s wraps around. -/
def wrapInt (x : Int) : Int :=
  (x + 9223372036854775808) % 18446744073709551616 - 9223372036854775808

/-- `ResponseWriter.Write`: forward, then `r.size += l` on a Go `int`. -/
def ResponseWriter.Write (env : Env) (r : ResponseWriter) (data : String) :
    Int × ResponseWriter :=
  let l := env.sinkWrite r.sink.calls data
  (l, { r with
        sink := { r.sink with
                            calls := r.sink.calls ++ [SinkCall.Write data l] },
        size := wrapInt (r.size + l) })

/-- `ResponseWriter.WriteHeader`: record the status, then forward. -/
def ResponseWriter.WriteHeader (r : ResponseWriter) (h : Int) : ResponseWriter :=
  { r with
    status := h,
    sink := { r.sink with
                        calls := r.sink.calls ++ [SinkCall.WriteHeader h] } }

/-- `Header().Get(k)`: the value, or the empty string. -/
def ResponseWriter.HeaderGet (r : ResponseWriter) (k : String) : String :=
  (r.sink.header.index k).getD ""

/-- Append an event to the trace. -/
def State.emit (st : State) (e : Event) : State :=
  { st with trace := st.trace ++ [e] }

/-- One effect of called code, applied to the request state. -/
def State.step (env : Env) (st : State) : Op → State
  | Op.WriteHeader h => { st with w := st.w.WriteHeader h }
  | Op.Write data => { st with w := (st.w.Write env data).2 }
  | Op.SetHeader k v =>
    { st with w := { st.w with
                     sink := { st.w.sink with
                                         header := st.w.sink.header.assign k v } } }
  | Op.ReadFile path => st.emit (Event.ReadFile path)

/-- The effects of called code, applied in order. -/
def State.perform (env : Env) (st : State) (ops : List Op) : State :=
  ops.foldl (State.step env) st

/-- Run a call: perform its effects and hand back how it ended. -/
def State.run {α : Type} (env : Env) (st : State) (k : Call α) : Outcome α × State :=
  (k.result, st.perform env k.ops)

/-! ## App.handle (app.go 211-253) -/

/-- What the type switch of `App.handle` selects. -/
inductive Resolution where
  | call (cap : Capability) (k : Call (Option Response))
  | unset
  | passthrough (k : Call Unit)
  | notFound

/-- Wrap a data result as `web.JsonResponse{...}`. -/
def wrapJson (k : Call Value) : Call (Option Response) :=
  { ops := k.ops
    result := match k.result with
      | Outcome.returned v => Outcome.returned (some (Response.JsonResponse v))
      | Outcome.panicked err => Outcome.panicked err }

/-- The type switch of `App.handle` (lines 219-247): the first case whose type
the controller satisfies is taken; inside the `GETController` and
`POSTController` cases the method is compared and `response` stays nil (`unset`)
when it differs. -/
def typeSwitch (c : Controller) (req : Request) (ctx : web.Context) : Resolution :=
  match c.Get with
  | some get =>
    if req.Method = "GET" then Resolution.call Capability.Get (get ctx) else Resolution.unset
  | none =>
  match c.Post with
  | some post =>
    if req.Method = "POST" then Resolution.call Capability.Post (post ctx) else Resolution.unset
  | none =>
  match c.handlerFunc with
  | some f => Resolution.call Capability.handlerFunc (f ctx)
  | none =>
  match c.Data with
  | some d => Resolution.call Capability.Data (wrapJson (d ctx))
  | none =>
  match c.dataFunc with
  | some f => Resolution.call Capability.dataFunc (wrapJson (f ctx))
  | none =>
  match c.ServeHTTP with
  | some h => Resolution.passthrough (h req)
  | none => Resolution.notFound

/-- `response.Apply(w)`: a nil `response` is a nil-interface method call. -/
def Response.Apply (env : Env) (response : Option Response) (st : State) :
    Outcome Unit × State :=
  match response with
  | none => (Outcome.panicked nilDereference, st)
  | some (Response.JsonResponse data) => (st.emit Event.Apply).run env (env.jsonApply data)
  | some (Response.other apply) => (st.emit Event.Apply).run env apply

/-- The `http.Handler` returned by `App.handle(c)`, run on a request. -/
def App.handle (env : Env) (a : App) (c : Controller) (req : Request) (st : State) :
    Outcome Unit × State :=
  let s := a.Sessions req "aial"
  let st := st.emit (Event.SessionsGet "aial")
  let ctx := web.ContextFromRequest req s
  match typeSwitch c req ctx with
  | Resolution.call cap k =>
    let st := (st.emit (Event.Invoke cap)).perform env k.ops
    match k.result with
    | Outcome.panicked err => (Outcome.panicked err, st)
    | Outcome.returned response => Response.Apply env response (st.emit Event.SessionsSave)
  | Resolution.unset => Response.Apply env none (st.emit Event.SessionsSave)
  | Resolution.passthrough k => (st.emit (Event.Invoke Capability.ServeHTTP)).run env k
  | Resolution.notFound =>
    let st := { st with w := st.w.WriteHeader 404 }
    let st := { st with w := (st.w.Write env "404 page not found (no handler)").2 }
    (Outcome.returned (), st)

/-! ## App.ServeHTTP (app.go 170-209) -/

/-- The body `a.router.ServeHTTP(w, req)`: a matched route runs the handler
`a.handle(controller)` it was mounted with, otherwise the router answers
itself. -/
def App.dispatch (env : Env) (a : App) (req : Request) (st : State) : Outcome Unit × State :=
  match env.muxMatch a.router req with
  | MuxResult.matched rt vars => a.handle env rt.controller { req with vars := vars } st
  | MuxResult.unmatched fallback => st.run env fallback

/-- The colour switch on the recorded status (lines 188-199). -/
def statusColor (status : Int) : Color :=
  if 200 ≤ status ∧ status < 300 then Color.Green
  else if 300 ≤ status ∧ status < 400 then Color.Blue
  else if 400 ≤ status ∧ status < 500 then Color.Yellow
  else if 500 ≤ status ∧ status < 600 then Color.Red
  else Color.Black

/-- The recovery block of the deferred function (lines 177-184); `recovered` is
what `recover()` returned. Yields `extra` and the state. -/
def App.recovery (env : Env) (a : App) (recovered : Option String) (st : State) :
    String × State :=
  let extra := ""
  match recovered with
  | none => (extra, st)
  | some err =>
    let st := { st with w := st.w.WriteHeader 500 }
    if a.Debug then
      let extra := extra ++ ("| Error: " ++ err)
      let st := { st with w := (st.w.Write env (err ++ "\n")).2 }
      let st := { st with w := (st.w.Write env env.Stack).2 }
      (extra, st)
    else (extra, st)

/-- The logging block of the deferred function (lines 185-205). -/
def App.accessLog (a : App) (req : Request) (extra : String) (st : State) : State :=
  if a.Debug then
    let ww := st.w
    let cp := statusColor ww.status
    let extra :=
      if ww.HeaderGet "Location" ≠ "" then extra ++ ("-> " ++ ww.HeaderGet "Location")
      else extra
    st.emit (Event.Printf { color := cp, status := ww.status, method := req.Method,
                            size := ww.size, uri := req.RequestURI, extra := extra })
  else st

/-- The deferred function of `ServeHTTP`. -/
def App.deferred (env : Env) (a : App) (req : Request) (recovered : Option String)
    (st : State) : State :=
  let (extra, st) := a.recovery env recovered st
  a.accessLog req extra st

/-- `App.ServeHTTP`: wrap the writer, dispatch, run the deferred function. The
deferred function calls `recover()`, so a panic of the dispatch stops there and
`ServeHTTP` returns. -/
def App.ServeHTTP (env : Env) (a : App) (w : Sink) (req : Request) : Outcome Unit × State :=
  let st : State := { w := { sink := w, status := 0, size := 0 }, trace := [] }
  match a.dispatch env req st with
  | (Outcome.returned _, st) => (Outcome.returned (), a.deferred env req none st)
  | (Outcome.panicked err, st) => (Outcome.returned (), a.deferred env req (some err) st)

/-! ## App.Get, App.GetHandler (app.go 255-279) -/

/-- The fixture file `App.Get` reads in debug mode. -/
def mockPath (handler : String) : String :=
  "frontend/src/mocks/" ++ handler ++ ".json"

/-- `App.Get`. The error of `json.Unmarshal` is dropped, so `res` keeps its zero
value nil when the data does not parse. -/
def App.Get (env : Env) (a : App) (handler : String) (ctx : web.Context) : Call Value :=
  match a.handler.index handler with
  | some c =>
    match c.Data with
    | some data => data ctx
    | none =>
      match c.dataFunc with
      | some f => f ctx
      | none => { ops := [], result := Outcome.panicked "not a data controller" }
  | none =>
    if a.Debug then
      match env.readFile (mockPath handler) with
      | some data =>
        { ops := [Op.ReadFile (mockPath handler)],
          result := Outcome.returned ((env.unmarshal data).getD Value.nil) }
      | none =>
        { ops := [Op.ReadFile (mockPath handler)],
          result := Outcome.panicked ("not a handler: " ++ handler) }
    else { ops := [], result := Outcome.panicked ("not a handler: " ++ handler) }

/-- `App.GetHandler`. -/
def App.GetHandler (env : Env) (a : App) (c : web.Context) : Call (Option Response) :=
  wrapJson (a.Get env (c.Param1 "handler") c)

/-! ## App.Url (app.go 155-168) -/

/-- `App.Url`: `URL` on the nil route of an unknown name and `a.base.Path` on a
nil base are nil dereferences. -/
def App.Url (env : Env) (a : App) (name : String) (params : List String) : Outcome URL :=
  match Router.Get a.router name with
  | none => Outcome.panicked nilDereference
  | some rt =>
    match env.routeURL rt params with
    | Except.error err => Outcome.panicked err
    | Except.ok u =>
      match a.base with
      | none => Outcome.panicked nilDereference
      | some base => Outcome.returned { u with Path := env.pathJoin base.Path u.Path }

/-! ## New (app.go 95-148) -/

/-- The `Registrator`: module-level routes (pattern to name), module-level
handlers (name to controller), and what `Object(a)` followed by `Resolve()` does
to the fresh app. -/
structure Registrator where
  routes : GoMap String
  handlers : GoMap Controller
  Resolve : App → App

namespace context

/-- The deployment context: name, base URL, routes (pattern to name) and
handlers (name to controller). -/
structure Context where
  Name : String
  BaseUrl : String
  Routes : GoMap String
  Handler : GoMap Controller

end context

/-- The two route loops (lines 113-119) share this body: `a.routes[name] = p`. -/
def setRoutes (routes : GoMap String) (src : GoMap String) : GoMap String :=
  src.foldl (fun m e => m.assign e.2 e.1) routes

/-- The two handler loops (lines 122-128) share this body:
`a.handler[name] = handler`. -/
def setHandlers (handler : GoMap Controller) (src : GoMap Controller) : GoMap Controller :=
  src.foldl (fun m e => m.assign e.1 e.2) handler

/-- The route `router.Handle(pattern, a.handle(c)).Name(name)` creates, as
gorilla/mux does: with an accepted pattern the route has the handler and the
name; with a refused pattern it carries the error and has neither. -/
def muxRoute (env : Env) (pattern name : String) (c : Controller) : Route :=
  if env.muxAccepts pattern then
    { pattern := pattern, name := some name, controller := c, err := false }
  else
    { pattern := pattern, name := none, controller := Controller.none, err := true }

/-- `router.Handle(pattern, a.handle(c)).Name(name)`: the route is added to the
router either way; `New` does not look at its error. -/
def Router.Handle (env : Env) (r : Router) (pattern name : String) (c : Controller) :
    Router :=
  r ++ [muxRoute env pattern name c]

/-- The mounting loop (lines 132-143) over the handler entries in the order
`range` yields them; returns the router and the lines logged. -/
def mountLoop (env : Env) (a : App) :
    List (String × Controller) → GoMap Bool → Router → List String → Router × List String
  | [], _, router, out => (router, out)
  | (name, handler) :: rest, known, router, out =>
    if (known.index name).getD false then mountLoop env a rest known router out
    else
      let known := known.assign name true
      match a.routes.index name with
      | none => mountLoop env a rest known router out
      | some route =>
        mountLoop env a rest known
          (Router.Handle env router route name handler)
          (out ++ [a.log ++ "Register " ++ name ++ " at " ++ route])

/-- The controller of the route `New` always mounts last: the method value
`a.GetHandler`, a `func(web.Context) web.Response`. -/
def jsonController (env : Env) (a : App) : Controller :=
  { Controller.none with handlerFunc := some (a.GetHandler env) }

/-- `New`, lines 98-128: the fresh app after `Resolve`, the bootstrap
assignments and the four loops that fill the route and handler tables. -/
def New.setup (env : Env) (ctx : context.Context) (r : Registrator) : App :=
  let a : App :=
    { router := [], routes := [], handler := [], Debug := false, base := none, log := "",
      Sessions := env.NewCookieStore "something-very-secret" }
  let a := r.Resolve a
  let a := { a with router := [], routes := [], handler := [],
                    base := env.urlParse ("scheme://" ++ ctx.BaseUrl),
                    log := "[" ++ ctx.Name ++ "] " }
  let a := { a with routes := setRoutes a.routes r.routes }
  let a := { a with routes := setRoutes a.routes ctx.Routes }
  let a := { a with handler := setHandlers a.handler r.handlers }
  { a with handler := setHandlers a.handler ctx.Handler }

/-- `New`, lines 130-143: the app after the mounting loop, and the lines
logged. -/
def New.mounted (env : Env) (ctx : context.Context) (r : Registrator) : App × List String :=
  let a := New.setup env ctx r
  let mounted := mountLoop env a (env.rangeHandlers a.handler) [] a.router []
  ({ a with router := mounted.1 }, mounted.2)

/-- `New`: returns the app and the lines it logged. -/
def New (env : Env) (ctx : context.Context) (r : Registrator) : App × List String :=
  let a := (New.mounted env ctx r).1
  ({ a with router := Router.Handle env a.router "/_flamingo/json/{handler}" "_flamingo.json"
                        (jsonController env a) },
   (New.mounted env ctx r).2)

/-! ## Resolution as the specification words it -/

/-- Resolution by the priority list of the specification: (1) method GET and a
GET capability, (2) else method POST and a POST capability, (3) else a raw
response callback, (4) else a data-producing capability, (5) else a raw value
callback, (6) else a passthrough handler, (7) else not found. -/
def priorityResolve (c : Controller) (req : Request) (ctx : web.Context) : Resolution :=
  match (if req.Method = "GET" then c.Get else none) with
  | some get => Resolution.call Capability.Get (get ctx)
  | none =>
  match (if req.Method = "POST" then c.Post else none) with
  | some post => Resolution.call Capability.Post (post ctx)
  | none =>
  match c.handlerFunc with
  | some f => Resolution.call Capability.handlerFunc (f ctx)
  | none =>
  match c.Data with
  | some d => Resolution.call Capability.Data (wrapJson (d ctx))
  | none =>
  match c.dataFunc with
  | some f => Resolution.call Capability.dataFunc (wrapJson (f ctx))
  | none =>
  match c.ServeHTTP with
  | some h => Resolution.passthrough (h req)
  | none => Resolution.notFound

/-! ## Observations on a finished request -/

/-- The context `App.handle` builds for a request. -/
def App.contextOf (a : App) (req : Request) : web.Context :=
  web.ContextFromRequest req (a.Sessions req "aial")

/-- Session loads, session saves and controller invocations. -/
def Event.isSessionStep : Event → Bool
  | Event.SessionsGet _ => true
  | Event.SessionsSave => true
  | Event.Invoke _ => true
  | _ => false

/-- The session loads, session saves and controller invocations of a trace, in
order. -/
def sessionSteps (trace : List Event) : List Event :=
  trace.filter Event.isSessionStep

/-- The log lines of a trace, in order. -/
def printfLines (trace : List Event) : List LogLine :=
  trace.filterMap (fun e => match e with
    | Event.Printf line => some line
    | _ => none)

/-- The files read in a sequence of effects. -/
def filesRead (ops : List Op) : List Event :=
  ops.filterMap (fun o => match o with
    | Op.ReadFile path => some (Event.ReadFile path)
    | _ => none)

/-- Sum of the byte counts returned by the `Write` calls the wrapped writer
received. -/
def writtenCount : List SinkCall → Int
  | [] => 0
  | SinkCall.WriteHeader _ :: rest => writtenCount rest
  | SinkCall.Write _ l :: rest => l + writtenCount rest

/-- Whether a handler name has a route whose pattern the router accepts. -/
def App.mountable (env : Env) (a : App) (name : String) : Bool :=
  match a.routes.index name with
  | some pattern => env.muxAccepts pattern
  | none => false

/-- The route the mounting loop creates for a handler entry, if the name has a
route. -/
def mountFor (env : Env) (a : App) (e : String × Controller) : Option Route :=
  (a.routes.index e.1).map (fun route => muxRoute env route e.1 e.2)

/-! ## Sample values -/

/-- A response that writes status 200 and a short body. -/
def sampleResponse : Response :=
  Response.other { ops := [Op.WriteHeader 200, Op.Write "ok"], result := Outcome.returned () }

/-- A controller with a `Get` and a `Post` method. -/
def formController : Controller :=
  { Controller.none with
    Get := some (fun _ => { ops := [], result := Outcome.returned (some sampleResponse) }),
    Post := some (fun _ => { ops := [], result := Outcome.returned (some sampleResponse) }) }

/-- A controller with only a `Get` method. -/
def pageController : Controller :=
  { Controller.none with
    Get := some (fun _ => { ops := [], result := Outcome.returned (some sampleResponse) }) }

/-- A controller whose `Get` panics after writing nothing. -/
def brokenController : Controller :=
  { Controller.none with
    Get := some (fun _ => { ops := [], result := Outcome.panicked "boom" }) }

/-- A controller with only a `Data` method. -/
def basketController : Controller :=
  { Controller.none with
    Data := some (fun _ => { ops := [], result := Outcome.returned (Value.str "basket") }) }

/-- A GET request. -/
def getRequest (uri : String) : Request :=
  { Method := "GET", RequestURI := uri, vars := [] }

/-- A POST request. -/
def postRequest (uri : String) : Request :=
  { Method := "POST", RequestURI := uri, vars := [] }

/-- A fresh writer that has received no call. -/
def freshSink : Sink :=
  { calls := [], header := [] }

/-- The state `ServeHTTP` starts a request in. -/
def startState (w : Sink) : State :=
  { w := { sink := w, status := 0, size := 0 }, trace := [] }

/-- A reduced pattern check of gorilla/mux: a path pattern that is not empty
must start with a slash. -/
def slashFirst (pattern : String) : Bool :=
  match pattern.toList with
  | [] => true
  | c :: _ => c == '/'

/-- Collaborators for the examples: the writer accepts all bytes, the router
matches a request URI equal to a mounted pattern, no file exists. -/
def sampleEnv : Env :=
  { sinkWrite := fun _ data => (data.length : Int)
    jsonApply := fun _ =>
      { ops := [Op.SetHeader "Content-Type" "application/json", Op.WriteHeader 200,
                Op.Write "json"],
        result := Outcome.returned () }
    Stack := "goroutine 1 [running]:"
    muxMatch := fun router req =>
      match router.find? (fun rt => rt.pattern == req.RequestURI) with
      | some rt => MuxResult.matched rt []
      | none =>
        MuxResult.unmatched
          { ops := [Op.WriteHeader 404, Op.Write "404 page not found"],
            result := Outcome.returned () }
    muxAccepts := slashFirst
    routeURL := fun rt _ => Except.ok { Scheme := "", Host := "", Path := rt.pattern }
    pathJoin := fun a b => a ++ b
    urlParse := fun _ => none
    readFile := fun _ => none
    unmarshal := fun _ => none
    rangeHandlers := fun m => m
    NewCookieStore := fun _ _ _ => { values := [] } }

/-- Collaborators whose writer reports the largest `int` as the count of every
`Write`. -/
def hugeCountEnv : Env :=
  { sampleEnv with sinkWrite := fun _ _ => 9223372036854775807 }

/-- An app with one handler mounted at `/page`. -/
def sampleApp (c : Controller) (debug : Bool) : App :=
  { router := [{ pattern := "/page", name := some "page", controller := c, err := false }]
    routes := [("page", "/page")]
    handler := [("page", c)]
    Debug := debug
    base := some { Scheme := "scheme", Host := "localhost", Path := "/app" }
    log := "[sample] "
    Sessions := fun _ _ => { values := [] } }

/-- Collaborators where the fixture of handler `foo` exists but holds an
unbalanced brace, which `json.Unmarshal` rejects. -/
def brokenFixtureEnv : Env :=
  { sampleEnv with
    readFile := fun path => if path = "frontend/src/mocks/foo.json" then some "\x7b" else none
    unmarshal := fun _ => none }

/-- The context `GetHandler` receives for `/_flamingo/json/foo`. -/
def fooContext : web.Context :=
  { req := { Method := "GET", RequestURI := "/_flamingo/json/foo", vars := [("handler", "foo")] }
    session := { values := [] } }

/-- A registrator with no registrations whose `Resolve` leaves the app as it
is. -/
def emptyRegistrator : Registrator :=
  { routes := [], handlers := [], Resolve := fun a => a }

/-- A registrator with the module-level route and handler `page`, and the
handler `basket` without a route. -/
def moduleRegistrator : Registrator :=
  { routes := [("/page", "page")]
    handlers := [("page", pageController), ("basket", basketController)]
    Resolve := fun a => a }

/-- A deployment context that moves `page` to `/start`. -/
def siteContext : context.Context :=
  { Name := "site", BaseUrl := "localhost/app", Routes := [("/start", "page")],
    Handler := [("page", formController)] }

/-- A deployment context whose route map gives the name `home` two patterns,
visited with `/` first. -/
def twoPatternContext : context.Context :=
  { Name := "site", BaseUrl := "localhost/app", Routes := [("/", "home"), ("/home", "home")],
    Handler := [] }

/-- The same deployment context with the route map visited in the other
order. -/
def twoPatternContextSwapped : context.Context :=
  { Name := "site", BaseUrl := "localhost/app", Routes := [("/home", "home"), ("/", "home")],
    Handler := [] }

/-- A deployment context whose route pattern for `page` lacks the leading
slash. -/
def slashlessContext : context.Context :=
  { Name := "site", BaseUrl := "localhost/app", Routes := [("page", "page")],
    Handler := [("page", basketController)] }

/-- A deployment context with the handler `page` and no route at all. -/
def unroutedContext : context.Context :=
  { Name := "site", BaseUrl := "localhost/app", Routes := [],
    Handler := [("page", pageController)] }

/-! ## Reduced models of library functions, for the examples -/

/-- Split a path at its slashes. -/
def splitSlash : List Char → List (List Char)
  | [] => [[]]
  | c :: cs =>
    match splitSlash cs with
    | [] => [[]]
    | seg :: segs => if c = '/' then [] :: seg :: segs else (c :: seg) :: segs

/-- The element pass of Go `path.Clean`: empty and `.` elements are dropped, a
`..` removes the element before it, is dropped at the root, and is kept at the
start of a relative path. `stack` holds the kept elements, last first. -/
def cleanElements (rooted : Bool) : List (List Char) → List (List Char) → List (List Char)
  | [], stack => stack.reverse
  | seg :: rest, stack =>
    if seg = [] ∨ seg = ['.'] then cleanElements rooted rest stack
    else if seg = ['.', '.'] then
      match stack with
      | top :: below =>
        if top = ['.', '.'] then cleanElements rooted rest (seg :: stack)
        else cleanElements rooted rest below
      | [] => if rooted then cleanElements rooted rest [] else cleanElements rooted rest [seg]
    else cleanElements rooted rest (seg :: stack)

/-- Go `path.Clean`, by its documented rules. -/
def goPathClean (p : String) : String :=
  let cs := p.toList
  let rooted := cs.head? = some '/'
  let body := List.intercalate ['/'] (cleanElements rooted (splitSlash cs) [])
  let out := if rooted then '/' :: body else body
  if out = [] then "." else String.mk out

/-- Go `path.Join` of two elements: empty elements are ignored, the rest is
joined with a slash and cleaned. -/
def goPathJoin (a b : String) : String :=
  if a = "" ∧ b = "" then ""
  else if a = "" then goPathClean b
  else if b = "" then goPathClean a
  else goPathClean (a ++ "/" ++ b)

/-- Value given to a variable in a `key, value, key, value, ...` list. -/
def pairValue : List String → String → Option String
  | k :: v :: rest, x => if k = x then some v else pairValue rest x
  | _, _ => none

/-- Replace every path element of the form `{name}` by the value of `name`. -/
def fillElements (pairs : List String) : List (List Char) → Option (List (List Char))
  | [] => some []
  | seg :: rest =>
    match fillElements pairs rest with
    | none => none
    | some filled =>
      if seg.head? = some (Char.ofNat 123) then
        match pairValue pairs (String.mk (seg.drop 1).dropLast) with
        | none => none
        | some v => some (v.toList :: filled)
      else some (seg :: filled)

/-- A reduced `mux.Route.URL`: patterns whose variables are whole path elements
without a regular expression. -/
def templateURL (pattern : String) (pairs : List String) : Except String URL :=
  if pairs.length % 2 ≠ 0 then Except.error "mux: number of parameters must be multiple of 2"
  else
    match fillElements pairs (splitSlash pattern.toList) with
    | none => Except.error "mux: missing route variable"
    | some filled =>
      Except.ok { Scheme := "", Host := "", Path := String.mk (List.intercalate ['/'] filled) }

/-- A reduced `url.Parse`: URLs of the form `scheme://host/path`; a host that
contains a space is an error, as it is for `url.Parse`. -/
def parseSchemeURL (s : String) : Option URL :=
  let cs := s.toList
  if cs.take 9 = "scheme://".toList then
    let host := (cs.drop 9).takeWhile (fun c => c != '/')
    if host.contains ' ' then none
    else
      some { Scheme := "scheme",
             Host := String.mk host,
             Path := String.mk ((cs.drop 9).dropWhile (fun c => c != '/')) }
  else none

/-- Collaborators for the URL examples. -/
def routerEnv : Env :=
  { sampleEnv with
    routeURL := fun rt pairs => templateURL rt.pattern pairs
    pathJoin := goPathJoin
    urlParse := parseSchemeURL }

/-- A deployment served under `/app` with the route `greet` at `/hi/{name}`. -/
def greetContext : context.Context :=
  { Name := "site", BaseUrl := "localhost/app", Routes := [("/hi/{name}", "greet")],
    Handler := [("greet", pageController)] }

/-- The same deployment with a base URL whose host contains a space, which
`url.Parse` refuses. -/
def spaceHostContext : context.Context :=
  { Name := "site", BaseUrl := "my site/app", Routes := [("/hi/{name}", "greet")],
    Handler := [("greet", pageController)] }

/-! ## Theorems: the type switch of App.handle -/

/-- Apart from the unset case, the type switch selects what the priority list
of the specification selects. -/
theorem typeSwitch_eq_priorityResolve (c : Controller) (req : Request) (ctx : web.Context)
    (h : ∀ r, typeSwitch c req ctx = r → r ≠ Resolution.unset) :
    typeSwitch c req ctx = priorityResolve c req ctx := by
  cases hget : c.Get with
  | some get =>
    by_cases hm : req.Method = "GET"
    · simp [typeSwitch, priorityResolve, hget, hm]
    · exact absurd (by simp [typeSwitch, hget, hm]) (h _ rfl)
  | none =>
    cases hpost : c.Post with
    | some post =>
      by_cases hm : req.Method = "POST"
      · have hne : ¬ req.Method = "GET" := by rw [hm]; decide
        simp [typeSwitch, priorityResolve, hget, hpost, hm, hne]
      · exact absurd (by simp [typeSwitch, hget, hpost, hm]) (h _ rfl)
    | none => simp [typeSwitch, priorityResolve, hget, hpost]

/-- C1 (code at the failing input): for a controller with both a `Get` and a
`Post` method and a POST request, the priority list of the specification selects
`Post`, but the type switch of `App.handle` enters the `GETController` case,
leaves the response unset, never invokes `Post`, and the handler ends in a nil
dereference when it applies the response. -/
theorem handle_get_post_controller_on_post (env : Env) (a : App) (c : Controller)
    (get post : web.Context → Call (Option Response)) (req : Request) (st : State)
    (hget : c.Get = some get) (hpost : c.Post = some post) (hm : req.Method = "POST") :
    priorityResolve c req (web.ContextFromRequest req (a.Sessions req "aial"))
        = Resolution.call Capability.Post
            (post (web.ContextFromRequest req (a.Sessions req "aial")))
      ∧ typeSwitch c req (web.ContextFromRequest req (a.Sessions req "aial"))
        = Resolution.unset
      ∧ (a.handle env c req st).1 = Outcome.panicked nilDereference
      ∧ Event.Invoke Capability.Post ∉ (a.handle env c req st).2.trace.drop st.trace.length := by
  have hne : ¬ req.Method = "GET" := by rw [hm]; decide
  refine ⟨?_, ?_, ?_, ?_⟩
  · simp [priorityResolve, hget, hpost, hm, hne]
  · simp [typeSwitch, hget, hne]
  · simp [App.handle, typeSwitch, hget, hne, Response.Apply]
  · simp [App.handle, typeSwitch, hget, hne, Response.Apply, State.emit]

/-- Witness for `handle_get_post_controller_on_post`. -/
theorem handle_get_post_controller_on_post_witness :
    (App.handle sampleEnv (sampleApp formController false) formController
        (postRequest "/page") (startState freshSink)).1 = Outcome.panicked nilDereference :=
  (handle_get_post_controller_on_post sampleEnv (sampleApp formController false) formController
    (fun _ => { ops := [], result := Outcome.returned (some sampleResponse) })
    (fun _ => { ops := [], result := Outcome.returned (some sampleResponse) })
    (postRequest "/page") (startState freshSink) rfl rfl rfl).2.2.1

/-- C2 (code at the failing input): when the controller has a `Get` method and
the request method is not GET, `App.handle` produces no response, saves the
session and then calls `Apply` on the nil response: the handler panics with a
nil dereference. -/
theorem handle_applies_nil_response (env : Env) (a : App) (c : Controller)
    (get : web.Context → Call (Option Response)) (req : Request) (st : State)
    (hget : c.Get = some get) (hm : req.Method ≠ "GET") :
    a.handle env c req st
      = (Outcome.panicked nilDereference,
         { st with trace := st.trace ++ [Event.SessionsGet "aial", Event.SessionsSave] }) := by
  simp [App.handle, typeSwitch, hget, hm, Response.Apply, State.emit]

/-- Witness for `handle_applies_nil_response`. -/
theorem handle_applies_nil_response_witness :
    App.handle sampleEnv (sampleApp pageController false) pageController
        (postRequest "/page") (startState freshSink)
      = (Outcome.panicked nilDereference,
         { startState freshSink with
           trace := (startState freshSink).trace
                      ++ [Event.SessionsGet "aial", Event.SessionsSave] }) :=
  handle_applies_nil_response sampleEnv (sampleApp pageController false) pageController
    (fun _ => { ops := [], result := Outcome.returned (some sampleResponse) })
    (postRequest "/page") (startState freshSink) rfl (by decide)

/-! ## Theorems: App.Get -/

/-- C6: with `Debug` false, `App.Get` on a name that is not in the handler table
panics with "not a handler: " followed by the name, whatever the file system
holds, and performs no effect at all, so it reads no fixture file. -/
theorem Get_unknown_without_debug (env : Env) (a : App) (handler : String)
    (ctx : web.Context) (hdebug : a.Debug = false)
    (hunknown : a.handler.index handler = none) :
    a.Get env handler ctx
      = { ops := [], result := Outcome.panicked ("not a handler: " ++ handler) } := by
  simp [App.Get, hdebug, hunknown]

/-- Witness for `Get_unknown_without_debug`: the fixture of `foo` exists, the
app is not in debug mode, and `Get` still panics without reading it. -/
theorem Get_unknown_without_debug_witness :
    App.Get brokenFixtureEnv (sampleApp pageController false) "foo" fooContext
      = { ops := [], result := Outcome.panicked "not a handler: foo" } :=
  Get_unknown_without_debug brokenFixtureEnv (sampleApp pageController false) "foo"
    fooContext rfl rfl

/-- C7 (code at the failing input): with `Debug` true, an unknown name whose
fixture file can be read but does not parse makes `App.Get` return nil: the
error of `json.Unmarshal` is dropped and no panic "not a handler" is raised. -/
theorem Get_debug_unparsable_fixture (env : Env) (a : App) (handler data : String)
    (ctx : web.Context) (hdebug : a.Debug = true)
    (hunknown : a.handler.index handler = none)
    (hread : env.readFile (mockPath handler) = some data)
    (hparse : env.unmarshal data = none) :
    a.Get env handler ctx
      = { ops := [Op.ReadFile (mockPath handler)], result := Outcome.returned Value.nil } := by
  simp [App.Get, hdebug, hunknown, hread, hparse]

/-- Witness for `Get_debug_unparsable_fixture`. -/
theorem Get_debug_unparsable_fixture_witness :
    App.Get brokenFixtureEnv (sampleApp pageController true) "foo" fooContext
      = { ops := [Op.ReadFile "frontend/src/mocks/foo.json"],
          result := Outcome.returned Value.nil } :=
  Get_debug_unparsable_fixture brokenFixtureEnv (sampleApp pageController true) "foo" "\x7b"
    fooContext rfl rfl rfl rfl

/-! ## Lemmas: traces and byte accounting -/

@[simp] theorem emit_trace (st : State) (e : Event) : (st.emit e).trace = st.trace ++ [e] := rfl

@[simp] theorem emit_w (st : State) (e : Event) : (st.emit e).w = st.w := rfl

theorem sessionSteps_append (xs ys : List Event) :
    sessionSteps (xs ++ ys) = sessionSteps xs ++ sessionSteps ys := by
  simp [sessionSteps]

theorem printfLines_append (xs ys : List Event) :
    printfLines (xs ++ ys) = printfLines xs ++ printfLines ys := by
  simp [printfLines]

theorem filesRead_cons (o : Op) (rest : List Op) :
    filesRead (o :: rest) = filesRead [o] ++ filesRead rest := by
  cases o <;> simp [filesRead, List.filterMap_cons]

theorem step_trace (env : Env) (st : State) (o : Op) :
    (st.step env o).trace = st.trace ++ filesRead [o] := by
  cases o <;> simp [State.step, filesRead]

theorem perform_trace (env : Env) (ops : List Op) (st : State) :
    (st.perform env ops).trace = st.trace ++ filesRead ops := by
  induction ops generalizing st with
  | nil => simp [State.perform, filesRead]
  | cons o rest ih =>
    have h := ih (st.step env o)
    simp only [State.perform, List.foldl_cons] at h ⊢
    rw [h, step_trace, filesRead_cons o rest, List.append_assoc]

theorem sessionSteps_filesRead (ops : List Op) : sessionSteps (filesRead ops) = [] := by
  induction ops with
  | nil => rfl
  | cons o rest ih =>
    rw [filesRead_cons, sessionSteps_append, ih]
    cases o <;> simp [sessionSteps, filesRead, Event.isSessionStep]

theorem printfLines_filesRead (ops : List Op) : printfLines (filesRead ops) = [] := by
  induction ops with
  | nil => rfl
  | cons o rest ih =>
    rw [filesRead_cons, printfLines_append, ih]
    cases o <;> simp [printfLines, filesRead]

theorem run_trace {α : Type} (env : Env) (st : State) (k : Call α) :
    (st.run env k).2.trace = st.trace ++ filesRead k.ops := by
  simp [State.run, perform_trace]

theorem filter_sessionStep_filesRead (ops : List Op) :
    (filesRead ops).filter Event.isSessionStep = [] :=
  sessionSteps_filesRead ops

theorem filterMap_printf_filesRead (ops : List Op) :
    (filesRead ops).filterMap (fun e => match e with
      | Event.Printf line => some line
      | _ => none) = [] :=
  printfLines_filesRead ops

theorem Apply_trace_sessionSteps (env : Env) (response : Option Response) (st : State) :
    sessionSteps (Response.Apply env response st).2.trace = sessionSteps st.trace := by
  cases response with
  | none => rfl
  | some r =>
    cases r <;>
      simp [Response.Apply, run_trace, sessionSteps, List.filter_cons, Event.isSessionStep,
        filter_sessionStep_filesRead]

theorem Apply_trace_printfLines (env : Env) (response : Option Response) (st : State) :
    printfLines (Response.Apply env response st).2.trace = printfLines st.trace := by
  cases response with
  | none => rfl
  | some r =>
    cases r <;>
      simp [Response.Apply, run_trace, printfLines, List.filterMap_cons,
        filterMap_printf_filesRead]

theorem recovery_trace (env : Env) (a : App) (recovered : Option String) (st : State) :
    (a.recovery env recovered st).2.trace = st.trace := by
  cases recovered with
  | none => rfl
  | some err => cases hd : a.Debug <;> simp [App.recovery, hd]

theorem deferred_sessionSteps (env : Env) (a : App) (req : Request)
    (recovered : Option String) (st : State) :
    sessionSteps (a.deferred env req recovered st).trace = sessionSteps st.trace := by
  cases hd : a.Debug <;>
    simp [App.deferred, App.accessLog, hd, recovery_trace, sessionSteps, Event.isSessionStep]

/-- The session steps `App.handle` adds to the trace, by what the type switch
selected. -/
theorem handle_sessionSteps (env : Env) (a : App) (c : Controller) (req : Request)
    (st : State) :
    sessionSteps (a.handle env c req st).2.trace
      = sessionSteps st.trace ++ Event.SessionsGet "aial" ::
          (match typeSwitch c req (a.contextOf req) with
           | Resolution.call cap k =>
             (match k.result with
              | Outcome.returned _ => [Event.Invoke cap, Event.SessionsSave]
              | Outcome.panicked _ => [Event.Invoke cap])
           | Resolution.unset => [Event.SessionsSave]
           | Resolution.passthrough _ => [Event.Invoke Capability.ServeHTTP]
           | Resolution.notFound => []) := by
  unfold App.handle
  simp only [App.contextOf]
  cases hsw : typeSwitch c req (web.ContextFromRequest req (a.Sessions req "aial")) with
  | call cap k =>
    cases hr : k.result with
    | returned resp =>
      simp only [hr, Apply_trace_sessionSteps]
      simp [perform_trace, sessionSteps, List.filter_cons,
        Event.isSessionStep, filter_sessionStep_filesRead]
    | panicked err =>
      simp [hr, perform_trace, sessionSteps, List.filter_cons,
        Event.isSessionStep, filter_sessionStep_filesRead]
  | unset =>
    simp only [Apply_trace_sessionSteps]
    simp [sessionSteps, List.filter_cons, Event.isSessionStep]
  | passthrough k =>
    simp [run_trace, sessionSteps, List.filter_cons, Event.isSessionStep,
      filter_sessionStep_filesRead]
  | notFound =>
    simp [sessionSteps, List.filter_cons, Event.isSessionStep]

theorem ServeHTTP_eq (env : Env) (a : App) (w : Sink) (req : Request) :
    a.ServeHTTP env w req
      = (Outcome.returned (),
         a.deferred env req
           (match (a.dispatch env req (startState w)).1 with
            | Outcome.returned _ => none
            | Outcome.panicked err => some err)
           (a.dispatch env req (startState w)).2) := by
  unfold App.ServeHTTP
  change (match a.dispatch env req (startState w) with
    | (Outcome.returned _, st) => (Outcome.returned (), a.deferred env req none st)
    | (Outcome.panicked err, st) =>
      (Outcome.returned (), a.deferred env req (some err) st)) = _
  rcases a.dispatch env req (startState w) with ⟨out, st⟩
  cases out <;> rfl

theorem ServeHTTP_trace_sessionSteps (env : Env) (a : App) (w : Sink) (req : Request) :
    sessionSteps (a.ServeHTTP env w req).2.trace
      = sessionSteps (a.dispatch env req (startState w)).2.trace := by
  unfold App.ServeHTTP
  change sessionSteps (match a.dispatch env req (startState w) with
    | (Outcome.returned _, st) => (Outcome.returned (), a.deferred env req none st)
    | (Outcome.panicked err, st) =>
      (Outcome.returned (), a.deferred env req (some err) st)).2.trace = _
  rcases hd : a.dispatch env req (startState w) with ⟨out, st⟩
  cases out <;> simp [deferred_sessionSteps]

theorem Apply_trace_append (env : Env) (response : Option Response) (st : State) :
    ∃ rest, (Response.Apply env response st).2.trace = st.trace ++ rest := by
  cases response with
  | none => exact ⟨[], by simp [Response.Apply]⟩
  | some r =>
    cases r with
    | JsonResponse data =>
      exact ⟨Event.Apply :: filesRead (env.jsonApply data).ops, by
        simp [Response.Apply, run_trace]⟩
    | other apply =>
      exact ⟨Event.Apply :: filesRead apply.ops, by simp [Response.Apply, run_trace]⟩

theorem handle_trace_load_first (env : Env) (a : App) (c : Controller) (req : Request)
    (st : State) :
    ∃ rest, (a.handle env c req st).2.trace
      = st.trace ++ Event.SessionsGet "aial" :: rest := by
  unfold App.handle
  dsimp only
  cases hsw : typeSwitch c req (web.ContextFromRequest req (a.Sessions req "aial")) with
  | call cap k =>
    cases hr : k.result with
    | returned resp =>
      obtain ⟨rest, hrest⟩ := Apply_trace_append env resp
        ((State.perform env ((st.emit (Event.SessionsGet "aial")).emit (Event.Invoke cap))
          k.ops).emit Event.SessionsSave)
      refine ⟨Event.Invoke cap :: (filesRead k.ops ++ Event.SessionsSave :: rest), ?_⟩
      simp only [hr]
      rw [hrest]
      simp [perform_trace]
    | panicked err =>
      exact ⟨Event.Invoke cap :: filesRead k.ops, by simp [hr, perform_trace]⟩
  | unset =>
    obtain ⟨rest, hrest⟩ := Apply_trace_append env none
      ((st.emit (Event.SessionsGet "aial")).emit Event.SessionsSave)
    refine ⟨Event.SessionsSave :: rest, ?_⟩
    simp only []
    rw [hrest]
    simp
  | passthrough k =>
    exact ⟨Event.Invoke Capability.ServeHTTP :: filesRead k.ops, by simp [run_trace]⟩
  | notFound => exact ⟨[], by simp⟩

theorem deferred_trace_append (env : Env) (a : App) (req : Request)
    (recovered : Option String) (st : State) :
    ∃ rest, (a.deferred env req recovered st).trace = st.trace ++ rest := by
  have hlog : ∀ extra (st' : State), ∃ rest, (a.accessLog req extra st').trace
      = st'.trace ++ rest := by
    intro extra st'
    unfold App.accessLog
    split
    · exact ⟨[_], rfl⟩
    · exact ⟨[], by simp⟩
  obtain ⟨rest, hrest⟩ := hlog (a.recovery env recovered st).1 (a.recovery env recovered st).2
  exact ⟨rest, by simp only [App.deferred, hrest, recovery_trace]⟩

/-- C3 (amended): for every request the router matches to a mounted handler, the
session is loaded exactly once, as the first step of the handler and before any
controller is invoked. It is saved exactly once, after the invocation, when the
invoked capability returns; it is not saved when the invoked capability panics,
when a passthrough `http.Handler` took the writer, or when the value has none of
the capabilities. (When the type switch leaves the response unset, the one save
happens before the nil response is applied.) -/
theorem ServeHTTP_session_load_and_save (env : Env) (a : App) (w : Sink) (req : Request)
    (rt : Route) (vars : GoMap String)
    (hmatch : env.muxMatch a.router req = MuxResult.matched rt vars) :
    (a.ServeHTTP env w req).2.trace.head? = some (Event.SessionsGet "aial")
    ∧ (a.ServeHTTP env w req).2.trace.count (Event.SessionsGet "aial") = 1
    ∧ (∀ cap k resp,
        typeSwitch rt.controller { req with vars := vars }
            (a.contextOf { req with vars := vars }) = Resolution.call cap k →
        k.result = Outcome.returned resp →
        sessionSteps (a.ServeHTTP env w req).2.trace
          = [Event.SessionsGet "aial", Event.Invoke cap, Event.SessionsSave])
    ∧ (∀ cap k err,
        typeSwitch rt.controller { req with vars := vars }
            (a.contextOf { req with vars := vars }) = Resolution.call cap k →
        k.result = Outcome.panicked err →
        sessionSteps (a.ServeHTTP env w req).2.trace
          = [Event.SessionsGet "aial", Event.Invoke cap])
    ∧ (∀ k,
        typeSwitch rt.controller { req with vars := vars }
            (a.contextOf { req with vars := vars }) = Resolution.passthrough k →
        sessionSteps (a.ServeHTTP env w req).2.trace
          = [Event.SessionsGet "aial", Event.Invoke Capability.ServeHTTP])
    ∧ (typeSwitch rt.controller { req with vars := vars }
            (a.contextOf { req with vars := vars }) = Resolution.unset →
        sessionSteps (a.ServeHTTP env w req).2.trace
          = [Event.SessionsGet "aial", Event.SessionsSave])
    ∧ (typeSwitch rt.controller { req with vars := vars }
            (a.contextOf { req with vars := vars }) = Resolution.notFound →
        sessionSteps (a.ServeHTTP env w req).2.trace = [Event.SessionsGet "aial"]) := by
  have hall : sessionSteps (a.ServeHTTP env w req).2.trace
      = sessionSteps (a.handle env rt.controller { req with vars := vars }
          (startState w)).2.trace := by
    rw [ServeHTTP_trace_sessionSteps]
    simp [App.dispatch, hmatch]
  have hcount : (a.ServeHTTP env w req).2.trace.count (Event.SessionsGet "aial")
      = (sessionSteps (a.ServeHTTP env w req).2.trace).count (Event.SessionsGet "aial") := by
    unfold sessionSteps
    rw [List.count_filter]
    rfl
  have hhead : (a.ServeHTTP env w req).2.trace.head? = some (Event.SessionsGet "aial") := by
    rw [ServeHTTP_eq]
    obtain ⟨rest, hrest⟩ := handle_trace_load_first env a rt.controller
      { req with vars := vars } (startState w)
    obtain ⟨more, hmore⟩ := deferred_trace_append env a req
      (match (a.dispatch env req (startState w)).1 with
        | Outcome.returned _ => none
        | Outcome.panicked err => some err)
      (a.dispatch env req (startState w)).2
    simp only [hmore]
    simp only [App.dispatch, hmatch, hrest]
    simp [startState]
  refine ⟨hhead, ?_, ?_, ?_, ?_, ?_, ?_⟩
  · rw [hcount, hall, handle_sessionSteps]
    cases hsw : typeSwitch rt.controller { req with vars := vars }
        (a.contextOf { req with vars := vars }) with
    | call cap k =>
      cases hr : k.result <;> simp [hr, startState, sessionSteps]
    | unset => simp [startState, sessionSteps]
    | passthrough k => simp [startState, sessionSteps]
    | notFound => simp [startState, sessionSteps]
  · intro cap k resp hsw hr
    rw [hall, handle_sessionSteps]
    simp [hsw, hr, startState, sessionSteps]
  · intro cap k err hsw hr
    rw [hall, handle_sessionSteps]
    simp [hsw, hr, startState, sessionSteps]
  · intro k hsw
    rw [hall, handle_sessionSteps]
    simp [hsw, startState, sessionSteps]
  · intro hsw
    rw [hall, handle_sessionSteps]
    simp [hsw, startState, sessionSteps]
  · intro hsw
    rw [hall, handle_sessionSteps]
    simp [hsw, startState, sessionSteps]

/-- Witness for `ServeHTTP_session_load_and_save`: a GET on a controller with a
`Get` method that returns. -/
theorem ServeHTTP_session_load_and_save_witness :
    sessionSteps (App.ServeHTTP sampleEnv (sampleApp pageController false) freshSink
        (getRequest "/page")).2.trace
      = [Event.SessionsGet "aial", Event.Invoke Capability.Get, Event.SessionsSave] :=
  (ServeHTTP_session_load_and_save sampleEnv (sampleApp pageController false) freshSink
    (getRequest "/page")
    { pattern := "/page", name := some "page", controller := pageController, err := false }
    [] rfl).2.2.1
    Capability.Get { ops := [], result := Outcome.returned (some sampleResponse) }
    (some sampleResponse) rfl rfl

/-- C3 (counterexample): a request routed to a controller whose `Get` panics.
`ServeHTTP` recovers and returns, and the session was loaded once but never
saved. -/
theorem ServeHTTP_fault_skips_session_save :
    (App.dispatch sampleEnv (sampleApp brokenController false) (getRequest "/page")
        (startState freshSink)).1 = Outcome.panicked "boom"
    ∧ (App.ServeHTTP sampleEnv (sampleApp brokenController false) freshSink
        (getRequest "/page")).1 = Outcome.returned ()
    ∧ (App.ServeHTTP sampleEnv (sampleApp brokenController false) freshSink
        (getRequest "/page")).2.trace.count (Event.SessionsGet "aial") = 1
    ∧ (App.ServeHTTP sampleEnv (sampleApp brokenController false) freshSink
        (getRequest "/page")).2.trace.count Event.SessionsSave = 0 := by
  refine ⟨rfl, rfl, ?_, ?_⟩ <;> decide


/-! ## Lemmas: recovery and the access log -/

theorem writtenCount_append (xs ys : List SinkCall) :
    writtenCount (xs ++ ys) = writtenCount xs + writtenCount ys := by
  induction xs with
  | nil => simp [writtenCount]
  | cons c rest ih =>
    cases c <;> simp [writtenCount, ih, add_assoc]

theorem wrapInt_add (x y : Int) : wrapInt (wrapInt x + y) = wrapInt (x + y) := by
  unfold wrapInt
  omega

theorem wrapInt_of_range (x : Int) (hlo : -9223372036854775808 ≤ x)
    (hhi : x < 9223372036854775808) : wrapInt x = x := by
  unfold wrapInt
  omega

theorem Write_counted (env : Env) (r : ResponseWriter) (data : String) (base : Int)
    (h : r.size = wrapInt (writtenCount r.sink.calls - base)) :
    (r.Write env data).2.size
      = wrapInt (writtenCount (r.Write env data).2.sink.calls - base) := by
  simp only [ResponseWriter.Write, writtenCount_append, writtenCount]
  rw [h, wrapInt_add]
  congr 1
  omega

theorem WriteHeader_counted (r : ResponseWriter) (status : Int) (base : Int)
    (h : r.size = wrapInt (writtenCount r.sink.calls - base)) :
    (r.WriteHeader status).size
      = wrapInt (writtenCount (r.WriteHeader status).sink.calls - base) := by
  simp only [ResponseWriter.WriteHeader, writtenCount_append, writtenCount]
  rw [h]
  congr 1
  omega

theorem step_counted (env : Env) (st : State) (o : Op) (base : Int)
    (h : st.w.size = wrapInt (writtenCount st.w.sink.calls - base)) :
    (st.step env o).w.size
      = wrapInt (writtenCount (st.step env o).w.sink.calls - base) := by
  cases o with
  | WriteHeader status => exact WriteHeader_counted st.w status base h
  | Write data => exact Write_counted env st.w data base h
  | SetHeader k v => exact h
  | ReadFile path => exact h

theorem perform_counted (env : Env) (ops : List Op) (st : State) (base : Int)
    (h : st.w.size = wrapInt (writtenCount st.w.sink.calls - base)) :
    (st.perform env ops).w.size
      = wrapInt (writtenCount (st.perform env ops).w.sink.calls - base) := by
  induction ops generalizing st with
  | nil => exact h
  | cons o rest ih => exact ih (st.step env o) (step_counted env st o base h)

theorem Apply_counted (env : Env) (response : Option Response) (st : State) (base : Int)
    (h : st.w.size = wrapInt (writtenCount st.w.sink.calls - base)) :
    (Response.Apply env response st).2.w.size
      = wrapInt (writtenCount (Response.Apply env response st).2.w.sink.calls - base) := by
  cases response with
  | none => exact h
  | some r =>
    cases r with
    | JsonResponse data => exact perform_counted env _ (st.emit Event.Apply) base h
    | other apply => exact perform_counted env _ (st.emit Event.Apply) base h

theorem handle_counted (env : Env) (a : App) (c : Controller) (req : Request) (st : State)
    (base : Int) (h : st.w.size = wrapInt (writtenCount st.w.sink.calls - base)) :
    (a.handle env c req st).2.w.size
      = wrapInt (writtenCount (a.handle env c req st).2.w.sink.calls - base) := by
  unfold App.handle
  dsimp only
  cases hsw : typeSwitch c req (web.ContextFromRequest req (a.Sessions req "aial")) with
  | call cap k =>
    have hp := perform_counted env k.ops
      ((st.emit (Event.SessionsGet "aial")).emit (Event.Invoke cap)) base h
    cases hr : k.result with
    | returned resp =>
      simp only [hr]
      exact Apply_counted env resp _ base hp
    | panicked err =>
      simp only [hr]
      exact hp
  | unset => exact h
  | passthrough k =>
    exact perform_counted env k.ops
      ((st.emit (Event.SessionsGet "aial")).emit (Event.Invoke Capability.ServeHTTP)) base h
  | notFound =>
    exact Write_counted env _ _ base (WriteHeader_counted st.w 404 base h)

theorem handle_printfLines (env : Env) (a : App) (c : Controller) (req : Request)
    (st : State) :
    printfLines (a.handle env c req st).2.trace = printfLines st.trace := by
  unfold App.handle
  dsimp only
  cases hsw : typeSwitch c req (web.ContextFromRequest req (a.Sessions req "aial")) with
  | call cap k =>
    cases hr : k.result with
    | returned resp =>
      simp only [hr, Apply_trace_printfLines]
      simp [perform_trace, printfLines, List.filterMap_cons, filterMap_printf_filesRead]
    | panicked err =>
      simp [hr, perform_trace, printfLines, List.filterMap_cons, filterMap_printf_filesRead]
  | unset =>
    simp only [Apply_trace_printfLines]
    simp [printfLines, List.filterMap_cons]
  | passthrough k =>
    simp [run_trace, printfLines, List.filterMap_cons, filterMap_printf_filesRead]
  | notFound => simp [printfLines, List.filterMap_cons]

theorem dispatch_counted (env : Env) (a : App) (req : Request) (st : State) (base : Int)
    (h : st.w.size = wrapInt (writtenCount st.w.sink.calls - base)) :
    (a.dispatch env req st).2.w.size
      = wrapInt (writtenCount (a.dispatch env req st).2.w.sink.calls - base) := by
  unfold App.dispatch
  cases env.muxMatch a.router req with
  | matched rt vars => exact handle_counted env a rt.controller _ st base h
  | unmatched fallback => exact perform_counted env fallback.ops st base h

theorem dispatch_printfLines (env : Env) (a : App) (req : Request) (st : State) :
    printfLines (a.dispatch env req st).2.trace = printfLines st.trace := by
  unfold App.dispatch
  cases env.muxMatch a.router req with
  | matched rt vars => exact handle_printfLines env a rt.controller _ st
  | unmatched fallback =>
    simp [run_trace, printfLines, filterMap_printf_filesRead]

theorem recovery_counted (env : Env) (a : App) (recovered : Option String) (st : State)
    (base : Int) (h : st.w.size = wrapInt (writtenCount st.w.sink.calls - base)) :
    (a.recovery env recovered st).2.w.size
      = wrapInt (writtenCount (a.recovery env recovered st).2.w.sink.calls - base) := by
  cases recovered with
  | none => exact h
  | some err =>
    cases hd : a.Debug
    · simp only [App.recovery, hd]
      exact WriteHeader_counted st.w 500 base h
    · simp only [App.recovery, hd, if_true]
      exact Write_counted env _ _ base
        (Write_counted env _ _ base (WriteHeader_counted st.w 500 base h))

theorem accessLog_w (a : App) (req : Request) (extra : String) (st : State) :
    (a.accessLog req extra st).w = st.w := by
  cases hd : a.Debug <;> simp [App.accessLog, hd]

theorem deferred_w (env : Env) (a : App) (req : Request) (recovered : Option String)
    (st : State) :
    (a.deferred env req recovered st).w = (a.recovery env recovered st).2.w := by
  simp [App.deferred, accessLog_w]

/-! ## Theorems: App.ServeHTTP -/

/-- C9 (amended): `ServeHTTP` emits exactly one log line when `Debug` is true and
none when `Debug` is false. The line carries the status recorded by the wrapper,
the method, the recorded byte count, the request URI and an `extra` text made of
the recovered error (if any) followed by the `Location` target (if not empty).
The recorded byte count is the sum of the counts returned by the wrapped `Write`
calls of this request as a Go `int` holds it: the sum itself while that fits 64
bits, wrapped around otherwise. After a recovered panic the recorded status is
500. -/
theorem ServeHTTP_access_log (env : Env) (a : App) (w : Sink) (req : Request) :
    printfLines (a.ServeHTTP env w req).2.trace
      = (if a.Debug then
          [{ color := statusColor (a.ServeHTTP env w req).2.w.status,
             status := (a.ServeHTTP env w req).2.w.status,
             method := req.Method,
             size := (a.ServeHTTP env w req).2.w.size,
             uri := req.RequestURI,
             extra :=
               (match (a.dispatch env req (startState w)).1 with
                | Outcome.panicked err => "| Error: " ++ err
                | Outcome.returned _ => "")
               ++ (if (a.ServeHTTP env w req).2.w.HeaderGet "Location" ≠ "" then
                     "-> " ++ (a.ServeHTTP env w req).2.w.HeaderGet "Location"
                   else "") }]
         else [])
    ∧ (a.ServeHTTP env w req).2.w.size
        = wrapInt
            (writtenCount (a.ServeHTTP env w req).2.w.sink.calls - writtenCount w.calls)
    ∧ (-9223372036854775808
          ≤ writtenCount (a.ServeHTTP env w req).2.w.sink.calls - writtenCount w.calls →
        writtenCount (a.ServeHTTP env w req).2.w.sink.calls - writtenCount w.calls
          < 9223372036854775808 →
        (a.ServeHTTP env w req).2.w.size
          = writtenCount (a.ServeHTTP env w req).2.w.sink.calls - writtenCount w.calls)
    ∧ (match (a.dispatch env req (startState w)).1 with
       | Outcome.panicked _ => (a.ServeHTTP env w req).2.w.status = 500
       | Outcome.returned _ =>
         (a.ServeHTTP env w req).2.w.status
           = (a.dispatch env req (startState w)).2.w.status) := by
  have hsize : (a.ServeHTTP env w req).2.w.size
      = wrapInt
          (writtenCount (a.ServeHTTP env w req).2.w.sink.calls - writtenCount w.calls) := by
    rw [ServeHTTP_eq]
    simp only [deferred_w]
    apply recovery_counted
    apply dispatch_counted
    simp [startState, wrapInt]
  refine ⟨?_, hsize, ?_, ?_⟩
  rotate_left
  · intro hlo hhi
    rw [hsize]
    exact wrapInt_of_range _ hlo hhi
  all_goals rw [ServeHTTP_eq]
  all_goals simp only [deferred_w]
  rotate_left
  · have hp := dispatch_printfLines env a req (startState w)
    simp only [startState, printfLines, List.filterMap_nil] at hp
    cases hd : a.Debug
    · simp [App.deferred, App.accessLog, hd, recovery_trace, startState, printfLines, hp]
    · cases hout : (a.dispatch env req (startState w)).1 with
      | returned v =>
        simp only [startState] at hout
        by_cases hloc : ((a.dispatch env req (startState w)).2.w.HeaderGet "Location") = ""
        · simp only [startState] at hloc
          simp [App.deferred, App.accessLog, hd, App.recovery, startState, printfLines,
            hp, hout, hloc]
        · simp only [startState] at hloc
          simp [App.deferred, App.accessLog, hd, App.recovery, startState, printfLines,
            hp, hout, hloc]
      | panicked err =>
        simp only [startState] at hout
        simp [App.deferred, App.accessLog, hd, App.recovery, startState, printfLines,
          hp, hout, ResponseWriter.HeaderGet, ResponseWriter.Write,
          ResponseWriter.WriteHeader]
        split <;> simp
  · cases hout : (a.dispatch env req (startState w)).1 with
    | returned v => simp [App.recovery]
    | panicked err =>
      cases hd : a.Debug <;>
        simp [App.recovery, hd, ResponseWriter.Write, ResponseWriter.WriteHeader]

/-- Witness for `ServeHTTP_access_log`: a served GET in debug mode, two bytes
written. -/
theorem ServeHTTP_access_log_witness :
    (App.ServeHTTP sampleEnv (sampleApp pageController true) freshSink
        (getRequest "/page")).2.w.size
      = writtenCount (App.ServeHTTP sampleEnv (sampleApp pageController true) freshSink
          (getRequest "/page")).2.w.sink.calls - writtenCount freshSink.calls :=
  (ServeHTTP_access_log sampleEnv (sampleApp pageController true) freshSink
    (getRequest "/page")).2.2.1 (by decide) (by decide)

/-- C9 (counterexample): with `Debug` false a request that is served normally
leaves no log line at all. And with `Debug` true, when the two `Write` calls of
the recovery each return the largest `int`, the logged byte count is -2 while
the sum of the returned counts is 18446744073709551614. -/
theorem ServeHTTP_silent_without_debug :
    (App.dispatch sampleEnv (sampleApp pageController false) (getRequest "/page")
        (startState freshSink)).1 = Outcome.returned ()
    ∧ printfLines (App.ServeHTTP sampleEnv (sampleApp pageController false) freshSink
        (getRequest "/page")).2.trace = []
    ∧ (printfLines (App.ServeHTTP hugeCountEnv (sampleApp brokenController true) freshSink
        (getRequest "/page")).2.trace).map LogLine.size = [-2]
    ∧ writtenCount (App.ServeHTTP hugeCountEnv (sampleApp brokenController true) freshSink
        (getRequest "/page")).2.w.sink.calls = 18446744073709551614 := by
  exact ⟨rfl, by decide, by decide, by decide⟩


/-! ## Lemmas: Go maps -/

theorem index_filter_ne {α : Type} (m : GoMap α) (k k' : String) (h : k' ≠ k) :
    GoMap.index (m.filter (fun e => e.1 != k)) k' = GoMap.index m k' := by
  induction m with
  | nil => rfl
  | cons e rest ih =>
    obtain ⟨ek, ev⟩ := e
    by_cases hek : ek = k
    · subst hek
      have hne : (k' == ek) = false := by simpa using h
      simp [GoMap.index, List.filter_cons, List.lookup_cons, hne] at ih ⊢
      exact ih
    · have hb : (ek != k) = true := by simpa using hek
      simp only [GoMap.index, List.filter_cons, hb, if_true, List.lookup_cons] at ih ⊢
      rw [ih]

theorem index_assign {α : Type} (m : GoMap α) (k k' : String) (v : α) :
    (m.assign k v).index k' = if k' = k then some v else m.index k' := by
  by_cases h : k' = k
  · subst h
    simp [GoMap.assign, GoMap.index, List.lookup_cons]
  · have hne : (k' == k) = false := by simpa using h
    have := index_filter_ne m k k' h
    simp only [GoMap.index] at this
    simp [GoMap.assign, GoMap.index, List.lookup_cons, hne, h, this]

theorem foldAssign_index_not_mem {α : Type} (src : GoMap α) (m : GoMap α) (k : String)
    (h : k ∉ src.keys) :
    (src.foldl (fun m e => m.assign e.1 e.2) m).index k = m.index k := by
  induction src generalizing m with
  | nil => rfl
  | cons e rest ih =>
    simp only [GoMap.keys, List.map_cons, List.mem_cons, not_or] at h
    simp only [List.foldl_cons]
    rw [ih _ h.2, index_assign, if_neg h.1]

theorem foldAssign_index_mem {α : Type} (src : GoMap α) (m : GoMap α) (k : String) (v : α)
    (hn : src.keys.Nodup) (h : (k, v) ∈ src) :
    (src.foldl (fun m e => m.assign e.1 e.2) m).index k = some v := by
  induction src generalizing m with
  | nil => simp at h
  | cons e rest ih =>
    simp only [GoMap.keys, List.map_cons, List.nodup_cons] at hn
    simp only [List.foldl_cons]
    rcases List.mem_cons.mp h with heq | hmem
    · subst heq
      rw [foldAssign_index_not_mem rest _ _ hn.1, index_assign, if_pos rfl]
    · exact ih _ hn.2 hmem

theorem mem_keys_iff {α : Type} (m : GoMap α) (k : String) :
    k ∈ m.keys ↔ ∃ v, (k, v) ∈ m := by
  simp [GoMap.keys]

theorem foldAssign_index_perm {α : Type} (src src' : GoMap α) (m m' : GoMap α)
    (hp : src'.Perm src) (hn : src.keys.Nodup) (hm : ∀ k, m'.index k = m.index k)
    (k : String) :
    (src'.foldl (fun m e => m.assign e.1 e.2) m').index k
      = (src.foldl (fun m e => m.assign e.1 e.2) m).index k := by
  have hn' : src'.keys.Nodup := (hp.map Prod.fst).nodup_iff.mpr hn
  by_cases hk : k ∈ src.keys
  · obtain ⟨v, hv⟩ := (mem_keys_iff src k).mp hk
    rw [foldAssign_index_mem src m k v hn hv,
      foldAssign_index_mem src' m' k v hn' (hp.mem_iff.mpr hv)]
  · have hk' : k ∉ src'.keys := fun h => hk ((hp.map Prod.fst).mem_iff.mp h)
    rw [foldAssign_index_not_mem src m k hk, foldAssign_index_not_mem src' m' k hk', hm]

theorem setHandlers_eq (m src : GoMap Controller) :
    setHandlers m src = src.foldl (fun m e => m.assign e.1 e.2) m := rfl

theorem setRoutes_eq (m src : GoMap String) :
    setRoutes m src = (src.map Prod.swap).foldl (fun m e => m.assign e.1 e.2) m := by
  simp [setRoutes, List.foldl_map]

theorem keys_map_swap (src : GoMap String) :
    GoMap.keys (src.map Prod.swap) = src.map Prod.snd := by
  simp [GoMap.keys]

theorem New_routes (env : Env) (ctx : context.Context) (r : Registrator) :
    (New env ctx r).1.routes = setRoutes (setRoutes [] r.routes) ctx.Routes := rfl

theorem New_handler (env : Env) (ctx : context.Context) (r : Registrator) :
    (New env ctx r).1.handler = setHandlers (setHandlers [] r.handlers) ctx.Handler := rfl

/-! ## Theorems: New -/

/-- C4 (amended): when neither source registers one name under two patterns,
after `New` the route table maps every name of the deployment set to the
deployment pattern and every name registered only at module level to the module
pattern; the handler table maps every name of the deployment set to the
deployment handler and every other module name to the module handler; and
visiting the four maps in any other order gives the same two tables. -/
theorem New_merges_registrations (env : Env) (ctx ctx' : context.Context)
    (r r' : Registrator)
    (hrr : r'.routes.Perm r.routes) (hrh : r'.handlers.Perm r.handlers)
    (hcr : ctx'.Routes.Perm ctx.Routes) (hch : ctx'.Handler.Perm ctx.Handler)
    (hnr : (r.routes.map Prod.snd).Nodup) (hnc : (ctx.Routes.map Prod.snd).Nodup)
    (hkr : r.handlers.keys.Nodup) (hkc : ctx.Handler.keys.Nodup) :
    (∀ p name, (p, name) ∈ ctx.Routes → (New env ctx r).1.routes.index name = some p)
    ∧ (∀ p name, (p, name) ∈ r.routes → name ∉ ctx.Routes.map Prod.snd →
        (New env ctx r).1.routes.index name = some p)
    ∧ (∀ name h, (name, h) ∈ ctx.Handler → (New env ctx r).1.handler.index name = some h)
    ∧ (∀ name h, (name, h) ∈ r.handlers → name ∉ ctx.Handler.keys →
        (New env ctx r).1.handler.index name = some h)
    ∧ (∀ name, (New env ctx' r').1.routes.index name = (New env ctx r).1.routes.index name)
    ∧ (∀ name, (New env ctx' r').1.handler.index name
        = (New env ctx r).1.handler.index name) := by
  have hnr' : GoMap.keys (r.routes.map Prod.swap) |>.Nodup := by
    rw [keys_map_swap]; exact hnr
  have hnc' : GoMap.keys (ctx.Routes.map Prod.swap) |>.Nodup := by
    rw [keys_map_swap]; exact hnc
  refine ⟨?_, ?_, ?_, ?_, ?_, ?_⟩
  · intro p name hmem
    rw [New_routes, setRoutes_eq _ ctx.Routes]
    apply foldAssign_index_mem _ _ _ _ hnc'
    exact List.mem_map.mpr ⟨(p, name), hmem, rfl⟩
  · intro p name hmem hnot
    rw [New_routes, setRoutes_eq _ ctx.Routes, foldAssign_index_not_mem _ _ _
      (by rw [keys_map_swap]; exact hnot), setRoutes_eq _ r.routes]
    apply foldAssign_index_mem _ _ _ _ hnr'
    exact List.mem_map.mpr ⟨(p, name), hmem, rfl⟩
  · intro name h hmem
    rw [New_handler, setHandlers_eq _ ctx.Handler]
    exact foldAssign_index_mem _ _ _ _ hkc hmem
  · intro name h hmem hnot
    rw [New_handler, setHandlers_eq _ ctx.Handler, foldAssign_index_not_mem _ _ _ hnot,
      setHandlers_eq _ r.handlers]
    exact foldAssign_index_mem _ _ _ _ hkr hmem
  · intro name
    rw [New_routes, New_routes, setRoutes_eq _ ctx.Routes, setRoutes_eq _ ctx'.Routes]
    apply foldAssign_index_perm _ _ _ _ (hcr.map Prod.swap) hnc'
    intro k
    rw [setRoutes_eq _ r.routes, setRoutes_eq _ r'.routes]
    exact foldAssign_index_perm _ _ _ _ (hrr.map Prod.swap) hnr' (fun _ => rfl) k
  · intro name
    rw [New_handler, New_handler, setHandlers_eq _ ctx.Handler, setHandlers_eq _ ctx'.Handler]
    apply foldAssign_index_perm _ _ _ _ hch hkc
    intro k
    rw [setHandlers_eq _ r.handlers, setHandlers_eq _ r'.handlers]
    exact foldAssign_index_perm _ _ _ _ hrh hkr (fun _ => rfl) k

/-- Witness for `New_merges_registrations`: the deployment context moves `page`
from `/page` to `/start`. -/
theorem New_merges_registrations_witness :
    (New sampleEnv siteContext moduleRegistrator).1.routes.index "page" = some "/start" :=
  (New_merges_registrations sampleEnv siteContext siteContext moduleRegistrator
    moduleRegistrator (List.Perm.refl _) (List.Perm.refl _) (List.Perm.refl _)
    (List.Perm.refl _) (by decide) (by decide) (by decide) (by decide)).1
    "/start" "page" (by decide)

/-- C4 (counterexample): a deployment route map that gives the name `home` the
two patterns `/` and `/home`. Visited in one order the route table maps `home`
to `/home`, visited in the other order it maps `home` to `/`. -/
theorem New_routes_depend_on_iteration_order :
    twoPatternContextSwapped.Routes.Perm twoPatternContext.Routes
    ∧ (New sampleEnv twoPatternContext emptyRegistrator).1.routes.index "home" = some "/home"
    ∧ (New sampleEnv twoPatternContextSwapped emptyRegistrator).1.routes.index "home"
        = some "/" := by
  refine ⟨?_, by decide, by decide⟩
  exact List.Perm.swap _ _ _


/-! ## Lemmas: the mounting loop -/

theorem mountLoop_router (env : Env) (a : App) (entries : List (String × Controller))
    (known : GoMap Bool) (router : Router) (out : List String)
    (hn : GoMap.keys entries |>.Nodup)
    (hk : ∀ n ∈ GoMap.keys entries, (known.index n).getD false = false) :
    (mountLoop env a entries known router out).1
      = router ++ entries.filterMap (mountFor env a) := by
  induction entries generalizing known router out with
  | nil => simp [mountLoop]
  | cons e rest ih =>
    obtain ⟨name, handler⟩ := e
    simp only [GoMap.keys, List.map_cons, List.nodup_cons] at hn
    have hfresh : (known.index name).getD false = false :=
      hk name (by simp [GoMap.keys])
    have hrest : ∀ n ∈ GoMap.keys rest,
        ((known.assign name true).index n).getD false = false := by
      intro n hmem
      have hne : n ≠ name := fun h => hn.1 (h ▸ hmem)
      rw [index_assign, if_neg hne]
      exact hk n (by simp only [GoMap.keys, List.map_cons, List.mem_cons]; exact Or.inr hmem)
    unfold mountLoop
    simp only [hfresh, Bool.false_eq_true, if_false]
    cases hroute : a.routes.index name with
    | none =>
      simp only []
      rw [ih _ _ _ hn.2 hrest]
      simp [List.filterMap_cons, mountFor, hroute]
    | some route =>
      simp only []
      rw [ih _ _ _ hn.2 hrest]
      simp [List.filterMap_cons, mountFor, hroute, Router.Handle]

theorem assign_keys_nodup {α : Type} (m : GoMap α) (k : String) (v : α)
    (h : m.keys.Nodup) : (m.assign k v).keys.Nodup := by
  simp only [GoMap.assign, GoMap.keys, List.map_cons, List.nodup_cons]
  constructor
  · intro hmem
    obtain ⟨e, he, hek⟩ := List.mem_map.mp hmem
    have := (List.mem_filter.mp he).2
    simp [hek] at this
  · exact (List.Nodup.sublist ((List.filter_sublist m).map Prod.fst) h)

theorem foldAssign_keys_nodup {α : Type} (src m : GoMap α) (h : m.keys.Nodup) :
    GoMap.keys (src.foldl (fun m e => m.assign e.1 e.2) m) |>.Nodup := by
  induction src generalizing m with
  | nil => exact h
  | cons e rest ih => exact ih _ (assign_keys_nodup m e.1 e.2 h)

theorem index_of_mem {α : Type} (m : GoMap α) (k : String) (v : α)
    (hn : m.keys.Nodup) (h : (k, v) ∈ m) : m.index k = some v := by
  induction m with
  | nil => simp at h
  | cons e rest ih =>
    obtain ⟨ek, ev⟩ := e
    simp only [GoMap.keys, List.map_cons, List.nodup_cons] at hn
    rcases List.mem_cons.mp h with heq | hmem
    · cases heq
      simp [GoMap.index, List.lookup_cons]
    · have hne : k ≠ ek := by
        intro hke
        apply hn.1
        exact List.mem_map.mpr ⟨(k, v), hmem, by simp [hke]⟩
      have hb : (k == ek) = false := by simpa using hne
      have := ih hn.2 hmem
      simp only [GoMap.index] at this
      simp [GoMap.index, List.lookup_cons, hb, this]

theorem New_handler_keys_nodup (env : Env) (ctx : context.Context) (r : Registrator) :
    (New env ctx r).1.handler.keys.Nodup := by
  rw [New_handler, setHandlers_eq, setHandlers_eq]
  exact foldAssign_keys_nodup _ _ (foldAssign_keys_nodup _ _ List.nodup_nil)

theorem New_router (env : Env) (ctx : context.Context) (r : Registrator)
    (hrange : ∀ m, (env.rangeHandlers m).Perm m) :
    (New env ctx r).1.router
      = (env.rangeHandlers (New env ctx r).1.handler).filterMap
          (mountFor env (New env ctx r).1)
        ++ [muxRoute env "/_flamingo/json/{handler}" "_flamingo.json"
              (jsonController env (New.mounted env ctx r).1)] := by
  have hn : GoMap.keys (env.rangeHandlers (New env ctx r).1.handler) |>.Nodup :=
    ((hrange _).map Prod.fst).nodup_iff.mpr (New_handler_keys_nodup env ctx r)
  have hm : (New.mounted env ctx r).1.router
      = (env.rangeHandlers (New env ctx r).1.handler).filterMap
          (mountFor env (New env ctx r).1) := by
    change (mountLoop env (New.setup env ctx r)
      (env.rangeHandlers (New env ctx r).1.handler) [] [] []).1 = _
    rw [mountLoop_router _ _ _ _ _ _ hn (by intro n _; rfl), List.nil_append]
    rfl
  change (New.mounted env ctx r).1.router ++ _ = _
  rw [hm]

theorem mountFor_name (env : Env) (a : App) (e : String × Controller) (rt : Route)
    (name : String) (h : mountFor env a e = some rt) (hname : rt.name = some name) :
    name = e.1 ∧ a.routes.index name = some rt.pattern ∧ rt.controller = e.2
      ∧ env.muxAccepts rt.pattern = true ∧ rt.err = false := by
  cases hroute : a.routes.index e.1 with
  | none => simp [mountFor, hroute] at h
  | some route =>
    simp only [mountFor, hroute, Option.map_some', Option.some.injEq] at h
    subst h
    cases hacc : env.muxAccepts route
    · simp [muxRoute, hacc] at hname
    · simp only [muxRoute, hacc, if_true, Option.some.injEq] at hname
      subst hname
      simp [muxRoute, hacc, hroute]

theorem mountFor_unnamed (env : Env) (a : App) (e : String × Controller) (rt : Route)
    (h : mountFor env a e = some rt) (hname : rt.name = none) :
    env.muxAccepts rt.pattern = false ∧ rt.err = true := by
  cases hroute : a.routes.index e.1 with
  | none => simp [mountFor, hroute] at h
  | some route =>
    simp only [mountFor, hroute, Option.map_some', Option.some.injEq] at h
    subst h
    cases hacc : env.muxAccepts route
    · simp [muxRoute, hacc]
    · simp [muxRoute, hacc] at hname

theorem filterMap_mountFor_names (env : Env) (a : App) (es : List (String × Controller)) :
    (es.filterMap (mountFor env a)).filterMap Route.name
      = (GoMap.keys es).filter (a.mountable env) := by
  induction es with
  | nil => rfl
  | cons e rest ih =>
    simp only [GoMap.keys] at ih
    cases hroute : a.routes.index e.1 with
    | none =>
      simp [List.filterMap_cons, mountFor, hroute, GoMap.keys, List.filter_cons, ih,
        App.mountable]
    | some route =>
      cases hacc : env.muxAccepts route <;>
        simp [List.filterMap_cons, mountFor, hroute, GoMap.keys, List.filter_cons, ih,
          App.mountable, muxRoute, hacc]

theorem filterMap_mountFor_length (env : Env) (a : App) (es : List (String × Controller)) :
    (es.filterMap (mountFor env a)).length
      = ((GoMap.keys es).filter (fun n => (a.routes.index n).isSome)).length := by
  induction es with
  | nil => rfl
  | cons e rest ih =>
    simp only [GoMap.keys] at ih
    cases hroute : a.routes.index e.1 <;>
      simp [List.filterMap_cons, mountFor, hroute, GoMap.keys, List.filter_cons, ih]

/-- C5 (amended): `New` creates one route for every handler name that has a
route and none for a handler name without a route, and after them the fixed
route `_flamingo.json` at `/_flamingo/json/{handler}`. The named routes among
them are exactly the handler names whose pattern the router accepts, each once
and each with the route pattern and the handler of that name; a route whose
pattern the router refuses carries an error and no name. A handler of the table
that has a `Data` method, or is a `func(web.Context) interface{}`, is reached
through `App.Get`, which returns what the handler returns; for any other handler
value `App.Get` panics with "not a data controller". -/
theorem New_mounts_routed_handlers (env : Env) (ctx : context.Context) (r : Registrator)
    (hrange : ∀ m, (env.rangeHandlers m).Perm m)
    (hjson : env.muxAccepts "/_flamingo/json/{handler}" = true) :
    (∀ name, name ∈ (New env ctx r).1.handler.keys →
        (New env ctx r).1.routes.index name = none →
        name ∉ (New env ctx r).1.router.dropLast.filterMap Route.name)
    ∧ ((New env ctx r).1.router.dropLast.filterMap Route.name).Perm
        ((New env ctx r).1.handler.keys.filter ((New env ctx r).1.mountable env))
    ∧ (New env ctx r).1.router.dropLast.length
        = ((New env ctx r).1.handler.keys.filter
            (fun n => ((New env ctx r).1.routes.index n).isSome)).length
    ∧ (New env ctx r).1.handler.keys.Nodup
    ∧ (∀ rt ∈ (New env ctx r).1.router.dropLast, ∀ name, rt.name = some name →
        (New env ctx r).1.routes.index name = some rt.pattern
        ∧ (New env ctx r).1.handler.index name = some rt.controller
        ∧ env.muxAccepts rt.pattern = true ∧ rt.err = false)
    ∧ (∀ rt ∈ (New env ctx r).1.router.dropLast, rt.name = none →
        env.muxAccepts rt.pattern = false ∧ rt.err = true)
    ∧ ((New env ctx r).1.router.getLast?.map (fun rt => (rt.pattern, rt.name, rt.err))
        = some ("/_flamingo/json/{handler}", some "_flamingo.json", false))
    ∧ (∀ name c f gctx, (New env ctx r).1.handler.index name = some c → c.Data = some f →
        (New env ctx r).1.Get env name gctx = f gctx)
    ∧ (∀ name c f gctx, (New env ctx r).1.handler.index name = some c → c.Data = none →
        c.dataFunc = some f → (New env ctx r).1.Get env name gctx = f gctx)
    ∧ (∀ name c gctx, (New env ctx r).1.handler.index name = some c → c.Data = none →
        c.dataFunc = none →
        (New env ctx r).1.Get env name gctx
          = { ops := [], result := Outcome.panicked "not a data controller" }) := by
  have hnodup := New_handler_keys_nodup env ctx r
  have hperm : ((New env ctx r).1.router.dropLast.filterMap Route.name).Perm
      ((New env ctx r).1.handler.keys.filter ((New env ctx r).1.mountable env)) := by
    rw [New_router env ctx r hrange, List.dropLast_concat, filterMap_mountFor_names]
    exact ((hrange _).map Prod.fst).filter _
  refine ⟨?_, hperm, ?_, hnodup, ?_, ?_, ?_, ?_, ?_, ?_⟩
  · intro name _ hnone hmem
    have := (List.mem_filter.mp (hperm.mem_iff.mp hmem)).2
    simp [App.mountable, hnone] at this
  · rw [New_router env ctx r hrange, List.dropLast_concat, filterMap_mountFor_length]
    exact (((hrange _).map Prod.fst).filter _).length_eq
  · intro rt hrt name hname
    rw [New_router env ctx r hrange, List.dropLast_concat] at hrt
    obtain ⟨e, he, hmount⟩ := List.mem_filterMap.mp hrt
    have he' : e ∈ (New env ctx r).1.handler := (hrange _).mem_iff.mp he
    obtain ⟨hn, hroute, hc, hacc, herr⟩ := mountFor_name env _ e rt name hmount hname
    refine ⟨hroute, ?_, hacc, herr⟩
    rw [hn, hc]
    exact index_of_mem _ _ _ hnodup he'
  · intro rt hrt hname
    rw [New_router env ctx r hrange, List.dropLast_concat] at hrt
    obtain ⟨e, _, hmount⟩ := List.mem_filterMap.mp hrt
    exact mountFor_unnamed env _ e rt hmount hname
  · rw [New_router env ctx r hrange, List.getLast?_concat]
    simp [muxRoute, hjson]
  · intro name c f gctx hc hdata
    simp [App.Get, hc, hdata]
  · intro name c f gctx hc hdata hfunc
    simp [App.Get, hc, hdata, hfunc]
  · intro name c gctx hc hdata hfunc
    simp [App.Get, hc, hdata, hfunc]

/-- Witness for `New_mounts_routed_handlers`: the handler `basket` has no route,
is not mounted, and `App.Get` returns its data. -/
theorem New_mounts_routed_handlers_witness :
    "basket" ∉ (New sampleEnv siteContext moduleRegistrator).1.router.dropLast.filterMap
        Route.name
    ∧ (New sampleEnv siteContext moduleRegistrator).1.Get sampleEnv "basket" fooContext
        = { ops := [], result := Outcome.returned (Value.str "basket") } :=
  have h := New_mounts_routed_handlers sampleEnv siteContext moduleRegistrator
    (fun m => List.Perm.refl m) rfl
  ⟨h.1 "basket" (by decide) (by decide),
   h.2.2.2.2.2.2.2.1 "basket" basketController
     (fun _ => { ops := [], result := Outcome.returned (Value.str "basket") }) fooContext
     rfl rfl⟩

/-- C5 (counterexample): the handler `page` has only a `Get` method and no
route. It is in the handler table, it is not mounted, and `App.Get` does not
return a result for it but panics with "not a data controller". And a handler
name whose route pattern `page` lacks the leading slash has a route and a
handler, yet the router holds no route of that name. -/
theorem Get_rejects_unrouted_get_controller :
    "page" ∈ (New sampleEnv unroutedContext emptyRegistrator).1.handler.keys
    ∧ (New sampleEnv unroutedContext emptyRegistrator).1.routes.index "page" = none
    ∧ (New sampleEnv unroutedContext emptyRegistrator).1.router.filterMap Route.name
        = ["_flamingo.json"]
    ∧ ((New sampleEnv unroutedContext emptyRegistrator).1.Get sampleEnv "page"
        fooContext).result = Outcome.panicked "not a data controller"
    ∧ "page" ∈ (New sampleEnv slashlessContext emptyRegistrator).1.handler.keys
    ∧ (New sampleEnv slashlessContext emptyRegistrator).1.routes.index "page" = some "page"
    ∧ (New sampleEnv slashlessContext emptyRegistrator).1.router.filterMap Route.name
        = ["_flamingo.json"] := by
  refine ⟨by decide, by decide, by decide, rfl, by decide, by decide, by decide⟩

/-! ## Theorems: App.Url -/

/-- C10 (amended): when the router knows the name and reverses the route with
the parameters to a URL `u`, and the base URL of the app was parsed, `App.Url`
returns `u` with its path replaced by the join of the base path and the path of
`u`; when the router does not know the name, or rejects the parameters,
`App.Url` panics and returns no URL; and when the base URL was not parsed,
`App.Url` panics although the reversal succeeded. -/
theorem Url_rebases_reversed_route (env : Env) (a : App) (name : String)
    (params : List String) :
    (∀ rt u base, Router.Get a.router name = some rt → env.routeURL rt params = Except.ok u →
        a.base = some base →
        a.Url env name params
          = Outcome.returned { u with Path := env.pathJoin base.Path u.Path })
    ∧ (Router.Get a.router name = none → ∃ err, a.Url env name params = Outcome.panicked err)
    ∧ (∀ rt err, Router.Get a.router name = some rt →
        env.routeURL rt params = Except.error err →
        a.Url env name params = Outcome.panicked err)
    ∧ (∀ rt u, Router.Get a.router name = some rt → env.routeURL rt params = Except.ok u →
        a.base = none → a.Url env name params = Outcome.panicked nilDereference) := by
  refine ⟨?_, ?_, ?_, ?_⟩
  · intro rt u base hget hurl hbase
    simp [App.Url, hget, hurl, hbase]
  · intro hget
    exact ⟨nilDereference, by simp [App.Url, hget]⟩
  · intro rt err hget hurl
    simp [App.Url, hget, hurl]
  · intro rt u hget hurl hbase
    simp [App.Url, hget, hurl, hbase]

/-- Witness for `Url_rebases_reversed_route`: route `greet` at `/hi/{name}`,
parameters `name`, `Ann`, base path `/app`. -/
theorem Url_rebases_reversed_route_witness :
    App.Url routerEnv (New routerEnv greetContext emptyRegistrator).1 "greet" ["name", "Ann"]
      = Outcome.returned { Scheme := "", Host := "", Path := "/app/hi/Ann" } :=
  (Url_rebases_reversed_route routerEnv (New routerEnv greetContext emptyRegistrator).1
    "greet" ["name", "Ann"]).1
    { pattern := "/hi/{name}", name := some "greet", controller := pageController,
      err := false }
    { Scheme := "", Host := "", Path := "/hi/Ann" }
    { Scheme := "scheme", Host := "localhost", Path := "/app" }
    rfl rfl rfl

/-- C10 (counterexample): the base URL `my site/app` does not parse, `New`
drops the error and leaves the base nil. The router knows `greet` and reverses
it with `name`, `Ann` to `/hi/Ann`, yet `App.Url` returns no URL: it panics
with a nil dereference. -/
theorem Url_faults_without_parsed_base :
    (New routerEnv spaceHostContext emptyRegistrator).1.base = none
    ∧ (Router.Get (New routerEnv spaceHostContext emptyRegistrator).1.router "greet").map
        (fun rt => routerEnv.routeURL rt ["name", "Ann"])
        = some (Except.ok { Scheme := "", Host := "", Path := "/hi/Ann" })
    ∧ App.Url routerEnv (New routerEnv spaceHostContext emptyRegistrator).1 "greet"
        ["name", "Ann"] = Outcome.panicked nilDereference := by
  exact ⟨rfl, rfl, rfl⟩

end Flamingo
